import Mathlib

/-!
Verification of the recursive request-parameter validator of
`src/TypeScripts/restlet.ts` (the variant with "values" and "overloaded"
schemas).  The JSON value model, the schema record, the error constructors
and the validation functions below are shallow embeddings of the
TypeScript source.  JavaScript exceptions (TypeError on a property access
of `undefined`, iteration over a non-iterable) are modelled by the
`Except.error` branch; a normal return is `Except.ok`.
-/

namespace Restlet

/-- Embeds the `JSONType` value tree of restlet.ts: a JSON-compatible value.
Objects are ordered key/value lists (JS objects keep string-key insertion
order and hold no duplicate keys); numbers are modelled as integers, which
covers every value the claims mention. -/
inductive JSONType : Type where
  | str (s : String)
  | num (n : Int)
  | bool (b : Bool)
  | null
  | arr (elems : List JSONType)
  | obj (fields : List (String × JSONType))

/-- Embeds `JSONPrimitive` of restlet.ts: string | number | boolean | null. -/
inductive JSONPrimitive : Type where
  | str (s : String)
  | num (n : Int)
  | bool (b : Bool)
  | null
deriving DecidableEq, Repr

/-- Embeds `RestletErrorResponse` of restlet.ts: `{status, name, message}`. -/
structure RestletErrorResponse : Type where
  status : Nat
  name : String
  message : String
deriving DecidableEq, Repr

/-- The ten strings the `type` discriminator of a schema can hold:
the six JSON type names plus "primitive", "tuple", "values", "overloaded". -/
inductive SchemaType : Type where
  | string
  | number
  | boolean
  | null
  | object
  | array
  | primitive
  | tuple
  | values
  | overloaded
deriving DecidableEq, Repr

/-- The discriminator string of a `SchemaType`, as the TypeScript source
compares and interpolates it. -/
def SchemaType.name : SchemaType → String
  | .string => "string"
  | .number => "number"
  | .boolean => "boolean"
  | .null => "null"
  | .object => "object"
  | .array => "array"
  | .primitive => "primitive"
  | .tuple => "tuple"
  | .values => "values"
  | .overloaded => "overloaded"

/-- Embeds `RestletParamSchema` of restlet.ts.  The TypeScript type is a
record with a `type` discriminator and conditionally present fields; the
code reads the fields through unchecked casts, so every field other than
`type` is optional here (`none` models an absent/`undefined` field, and
`required` models the truthiness check on a possibly absent flag). -/
inductive RestletParamSchema : Type where
  | mk (type : SchemaType)
       (param : Option String)
       (required : Bool)
       (arrayType : Option RestletParamSchema)
       (tupleType : Option (List RestletParamSchema))
       (properties : Option (List RestletParamSchema))
       (values : Option (List JSONPrimitive))
       (overloads : Option (List RestletParamSchema))

/-- The `type` discriminator of a schema. -/
def RestletParamSchema.type : RestletParamSchema → SchemaType
  | .mk ty _ _ _ _ _ _ _ => ty

/-- The `param` field of a schema (absent on root and array-member schemas). -/
def RestletParamSchema.param : RestletParamSchema → Option String
  | .mk _ p _ _ _ _ _ _ => p

/-- The truthiness of the `required` field of a schema. -/
def RestletParamSchema.required : RestletParamSchema → Bool
  | .mk _ _ r _ _ _ _ _ => r

/-- The `arrayType` field of a schema. -/
def RestletParamSchema.arrayType : RestletParamSchema → Option RestletParamSchema
  | .mk _ _ _ a _ _ _ _ => a

/-- The `tupleType` field of a schema. -/
def RestletParamSchema.tupleType : RestletParamSchema → Option (List RestletParamSchema)
  | .mk _ _ _ _ t _ _ _ => t

/-- The `properties` field of a schema. -/
def RestletParamSchema.properties : RestletParamSchema → Option (List RestletParamSchema)
  | .mk _ _ _ _ _ p _ _ => p

/-- The `values` field of a schema. -/
def RestletParamSchema.values : RestletParamSchema → Option (List JSONPrimitive)
  | .mk _ _ _ _ _ _ v _ => v

/-- The `overloads` field of a schema. -/
def RestletParamSchema.overloads : RestletParamSchema → Option (List RestletParamSchema)
  | .mk _ _ _ _ _ _ _ o => o

/-- Embeds `jsonType` of restlet.ts.  `typeof` handles the three primitive
kinds, then the `null` check; the `val.length !== undefined` check makes any
array, but also any object owning a key named "length", classify as
"array"; a remaining plain object classifies as "object".  Over this JSON
value model every value falls into one of those branches, so the
`shouldBeUnreachable` throw of the source is unreachable and the function
is total. -/
def jsonType : JSONType → String
  | .str _ => "string"
  | .num _ => "number"
  | .bool _ => "boolean"
  | .null => "null"
  | .arr _ => "array"
  | .obj fields => if (fields.lookup "length").isSome then "array" else "object"

/-- JavaScript strict equality (`===`, as `Array.prototype.includes` applies
it) between a member of an allowed-values list and a JSON value: primitives
compare by value, and an array or object value never equals a primitive. -/
def primEq : JSONPrimitive → JSONType → Bool
  | .str a, .str b => a == b
  | .num a, .num b => a == b
  | .bool a, .bool b => a == b
  | .null, .null => true
  | _, _ => false

mutual

/-- JavaScript `String(value)` as a template literal interpolates it:
primitives print their contents, arrays join their members with commas,
plain objects print "[object Object]". -/
def jsToString : JSONType → String
  | .str s => s
  | .num n => toString n
  | .bool b => (if b then "true" else "false")
  | .null => "null"
  | .arr elems => jsArrToString elems
  | .obj _ => "[object Object]"

/-- `Array.prototype.join(",")`: members rendered by `String`, except that
a null member renders as the empty string. -/
def jsArrToString : List JSONType → String
  | [] => ""
  | [JSONType.null] => ""
  | [v] => jsToString v
  | JSONType.null :: rest => "," ++ jsArrToString rest
  | v :: rest => jsToString v ++ "," ++ jsArrToString rest

end

/-- One character of `JSON.stringify` output for a string: quote and
backslash are escaped, other characters pass through. -/
def jsonEscapeChar (c : Char) : String :=
  if c = '\\' then "\\\\" else if c = '"' then "\\\"" else String.singleton c

/-- The body of `JSON.stringify` of a string (escaping applied). -/
def jsonEscapeString (s : String) : String :=
  String.join (s.toList.map jsonEscapeChar)

/-- `JSON.stringify` of one JSON primitive. -/
def JSONPrimitive.stringify : JSONPrimitive → String
  | .str s => "\"" ++ jsonEscapeString s ++ "\""
  | .num n => toString n
  | .bool b => (if b then "true" else "false")
  | .null => "null"

/-- `JSON.stringify` of an allowed-values list (an array of primitives). -/
def stringifyPrimList (vs : List JSONPrimitive) : String :=
  "[" ++ String.intercalate "," (vs.map JSONPrimitive.stringify) ++ "]"

/-- Embeds `restletError.missingRequiredParam` of restlet.ts. -/
def restletError.missingRequiredParam (paramName : String) : RestletErrorResponse :=
  { status := 400
    name := "Request Error - Missing Required Parameter"
    message := "The parameter '" ++ paramName ++
      "' was missing from the request, but is required for this endpoint." }

/-- Embeds `restletError.wrongParamName` of restlet.ts. -/
def restletError.wrongParamName (paramName : String) : RestletErrorResponse :=
  { status := 400
    name := "Request Error - Invalid Parameter Name"
    message := "The parameter with name '" ++ paramName ++
      "' was unexpected in this request." }

/-- Embeds `restletError.wrongParamType` of restlet.ts. -/
def restletError.wrongParamType (paramName paramTypeName expectedTypeName : String) :
    RestletErrorResponse :=
  { status := 400
    name := "Request Error - Incorrect Parameter Type"
    message := "The parameter '" ++ paramName ++ "' has the type '" ++ paramTypeName ++
      "', but was expected to have the type '" ++ expectedTypeName ++ "' instead." }

/-- Embeds `restletError.wrongParamValue` of restlet.ts.  The source takes
the allowed list as a `JSONPrimitive[]`, but its caller can pass an absent
field through a cast, which `JSON.stringify` then renders as "undefined";
the optional argument models that. -/
def restletError.wrongParamValue (paramName : String) (paramValue : JSONType)
    (expectedParamValues : Option (List JSONPrimitive)) : RestletErrorResponse :=
  { status := 400
    name := "Request Error - Incorrect Parameter Value"
    message := "The parameter '" ++ paramName ++ "' with the value '" ++
      jsToString paramValue ++ "' was not found in the expected value list: '" ++
      (match expectedParamValues with
       | some vs => stringifyPrimList vs
       | none => "undefined") ++ "'" }

/-- The expected-type description one overload contributes in the
synthesized overload-mismatch message: its `type` tag, then the tuple
member types in parentheses when a `tupleType` field is present, then the
array element type in parentheses when an `arrayType` field is present. -/
def overloadTypeName (overload : RestletParamSchema) : String :=
  match overload with
  | .mk ty _ _ arrayType tupleType _ _ _ =>
    ty.name ++
    (match tupleType with
     | some members =>
       " (" ++ String.intercalate ", " (members.map (fun m => m.type.name)) ++ ")"
     | none => "") ++
    (match arrayType with
     | some a => " (" ++ a.type.name ++ ")"
     | none => "")

/-- The synthesized "expected type" text of the overload-mismatch error:
each overload's description, joined with " | ". -/
def overloadDescription (overloads : List RestletParamSchema) : String :=
  String.intercalate " | " (overloads.map overloadTypeName)

/-- The property names every plain object inherits from
`Object.prototype`, which the JavaScript `in` operator reports as present
on any object alongside its own keys. -/
def objectPrototypeMembers : List String :=
  ["constructor", "hasOwnProperty", "isPrototypeOf", "propertyIsEnumerable",
   "toLocaleString", "toString", "valueOf", "__defineGetter__", "__defineSetter__",
   "__lookupGetter__", "__lookupSetter__", "__proto__"]

/-- The `in`-operator check of the object pass (`param in paramValue`):
true when the key is an own key of the object or an inherited
`Object.prototype` member name (a schema with no `param` makes JavaScript
coerce `undefined` to the key "undefined", handled at the call sites). -/
def hasPropertyKey (fields : List (String × JSONType)) (key : String) : Bool :=
  (fields.lookup key).isSome || objectPrototypeMembers.contains key

/-- Embeds `properties.find(prop => prop.param === nestedParam)`: the first
declared property schema whose `param` equals this key. -/
def findPropSchema (key : String) : List RestletParamSchema → Option RestletParamSchema
  | [] => none
  | p :: rest => if p.param == some key then some p else findPropSchema key rest

/-- Embeds the first pass of the object branch of `validateRequestParam`:
the missing-required error of the first declared property that is required
and whose name the `in` operator does not find on the value (neither an
own key nor an inherited `Object.prototype` member name), if any. -/
def firstMissingRequiredProp (props : List RestletParamSchema)
    (fields : List (String × JSONType)) : Option RestletErrorResponse :=
  match props with
  | [] => none
  | p :: rest =>
    if !hasPropertyKey fields (p.param.getD "undefined") && p.required then
      some (restletError.missingRequiredParam (p.param.getD "undefined"))
    else firstMissingRequiredProp rest fields

/-- Indexing `paramValue[index]` as the tuple loop applies it: an array
yields its element at the index, an object (a value that classified as
"array" through a "length" key) yields the property named by the decimal
index, anything else yields `undefined`. -/
def jsIndex : JSONType → Nat → Option JSONType
  | .arr elems, i => elems[i]?
  | .obj fields, i => fields.lookup (toString i)
  | _, _ => none

/-- The element list of an array value (`paramValue as JSONType[]`, as the
array branch iterates it); `none` on any non-array value, whose iteration
with `for...of` throws. -/
def arrayElems : JSONType → Option (List JSONType)
  | .arr elems => some elems
  | _ => none

/-- The own fields of an object value (`Object.entries(paramValue)`);
`none` on a non-object value. -/
def objFields : JSONType → Option (List (String × JSONType))
  | .obj fields => some fields
  | _ => none

/-- Whether a member of the list of overload validation outcomes counts as
a vote against the value: the source keeps exactly the outcomes whose
`name` (an absent outcome contributing "") is one of the two incorrect
type/value category names. -/
def isTypeOrValueError (r : Option RestletErrorResponse) : Bool :=
  ["Request Error - Incorrect Parameter Value",
   "Request Error - Incorrect Parameter Type"].contains
    (match r with
     | some e => e.name
     | none => "")

/-- Lemma feeding the termination argument of the validator: a property
schema found by key is a member of the list, so structurally smaller. -/
theorem sizeOf_findPropSchema {key : String} {props : List RestletParamSchema}
    {p : RestletParamSchema} (h : findPropSchema key props = some p) :
    sizeOf p < sizeOf props := by
  induction props with
  | nil => simp [findPropSchema] at h
  | cons q rest ih =>
    rw [findPropSchema] at h
    by_cases hq : (q.param == some key) = true
    · simp [hq] at h
      subst h
      simp
      omega
    · simp [hq] at h
      have := ih h
      simp
      omega

/-- The `arrayType` field is a structural component of the schema. -/
theorem sizeOf_arrayType_lt (s : RestletParamSchema) : sizeOf s.arrayType < sizeOf s := by
  cases s
  simp [RestletParamSchema.arrayType]
  omega

/-- A present `tupleType` list is structurally smaller than the schema. -/
theorem sizeOf_tupleType_some {s : RestletParamSchema} {l : List RestletParamSchema}
    (h : s.tupleType = some l) : sizeOf l < sizeOf s := by
  cases s
  simp [RestletParamSchema.tupleType] at h
  subst h
  simp
  omega

/-- A present `properties` list is structurally smaller than the schema. -/
theorem sizeOf_properties_some {s : RestletParamSchema} {l : List RestletParamSchema}
    (h : s.properties = some l) : sizeOf l < sizeOf s := by
  cases s
  simp [RestletParamSchema.properties] at h
  subst h
  simp
  omega

/-- A present `overloads` list is structurally smaller than the schema. -/
theorem sizeOf_overloads_some {s : RestletParamSchema} {l : List RestletParamSchema}
    (h : s.overloads = some l) : sizeOf l < sizeOf s := by
  cases s
  simp [RestletParamSchema.overloads] at h
  subst h
  simp
  omega

mutual

/-- Embeds `validateRequestParamType` of restlet.ts: overload resolution
for "overloaded" schemas (keeping only incorrect-type/value outcomes as
votes against the value), then the declared-type check (exact type-name
match, except that "primitive" accepts the four primitive type names and
"tuple" accepts "array", and a "values" schema skips the check). -/
def validateRequestParamType (paramValue : JSONType) (schema : RestletParamSchema) :
    Except String (Option RestletErrorResponse) :=
  let paramType := jsonType paramValue
  if schema.type == SchemaType.overloaded then
    match h : schema.overloads with
    | none => Except.error "TypeError: Cannot read properties of undefined"
    | some l =>
      match validateOverloads paramValue l with
      | Except.error e => Except.error e
      | Except.ok results =>
        if (results.filter isTypeOrValueError).length = l.length then
          Except.ok (some (restletError.wrongParamType
            (schema.param.getD "[root or array member]") paramType (overloadDescription l)))
        else
          Except.ok none
  else
    let isInvalidType := schema.type != SchemaType.primitive &&
      schema.type != SchemaType.tuple && paramType != schema.type.name
    let isInvalidPrimitive := schema.type == SchemaType.primitive &&
      !(["string", "number", "boolean", "null"].contains paramType)
    let isInvalidTuple := schema.type == SchemaType.tuple && paramType != "array"
    if schema.type != SchemaType.values &&
        (isInvalidType || isInvalidPrimitive || isInvalidTuple) then
      Except.ok (some (restletError.wrongParamType
        (schema.param.getD "[root or array member]") paramType schema.type.name))
    else
      Except.ok none
termination_by (sizeOf schema, 0, 0)
decreasing_by
simp_wf
exact Prod.Lex.left _ _ (sizeOf_overloads_some h)

/-- The `overloads.map(possibleSchema => validateRequestParam(...))` of the
overloaded branch: each alternative validated left to right, the first
exception propagating. -/
def validateOverloads (paramValue : JSONType) (overloads : List RestletParamSchema) :
    Except String (List (Option RestletErrorResponse)) :=
  match overloads with
  | [] => Except.ok []
  | o :: rest =>
    match validateRequestParam (some paramValue) o with
    | Except.error e => Except.error e
    | Except.ok r =>
      match validateOverloads paramValue rest with
      | Except.error e => Except.error e
      | Except.ok rs => Except.ok (r :: rs)
termination_by (sizeOf overloads, 0, 0)

/-- The tuple loop of `validateRequestParam`: declared positions in order;
a position whose value is absent yields the missing-required error naming
the tuple and the index, an error of a position's recursive validation is
returned at once, and a fully traversed list yields no error. -/
def validateTupleMembers (paramValue : JSONType) (index : Nat) (param : Option String)
    (members : List RestletParamSchema) : Except String (Option RestletErrorResponse) :=
  match members with
  | [] => Except.ok none
  | tupleSchema :: rest =>
    match jsIndex paramValue index with
    | none =>
      Except.ok (some (restletError.missingRequiredParam
        ((param.getD "[root or array member]") ++ " tuple, index " ++ toString index)))
    | some tupleValueAtIndex =>
      match validateRequestParam (some tupleValueAtIndex) tupleSchema with
      | Except.error e => Except.error e
      | Except.ok (some validationError) => Except.ok (some validationError)
      | Except.ok none => validateTupleMembers paramValue (index + 1) param rest
termination_by (sizeOf members, 0, 0)

/-- The array loop of `validateRequestParam`: each element validated
against the single element schema in index order, the first error
returned; an absent `arrayType` makes the recursive call read a property
of `undefined`, which throws on the first element. -/
def validateArrayMembers (elems : List JSONType) (arrayType : Option RestletParamSchema) :
    Except String (Option RestletErrorResponse) :=
  match elems with
  | [] => Except.ok none
  | e :: rest =>
    match ha : arrayType with
    | none => Except.error "TypeError: Cannot read properties of undefined"
    | some elemSchema =>
      match validateRequestParam (some e) elemSchema with
      | Except.error err => Except.error err
      | Except.ok (some validationError) => Except.ok (some validationError)
      | Except.ok none => validateArrayMembers rest (some elemSchema)
termination_by (sizeOf arrayType, sizeOf elems, 0)
decreasing_by
· simp_wf
  apply Prod.Lex.left
  omega
· decreasing_tactic

/-- The second pass of the object branch of `validateRequestParam`: the
value's own keys in insertion order; a key with no declared property
schema yields the wrong-parameter-name error, and otherwise the value at
the key is validated against the found schema, the first error returned. -/
def validateObjectMembers (fields : List (String × JSONType))
    (props : List RestletParamSchema) : Except String (Option RestletErrorResponse) :=
  match fields with
  | [] => Except.ok none
  | (nestedParam, nestedParamValue) :: rest =>
    match h : findPropSchema nestedParam props with
    | none => Except.ok (some (restletError.wrongParamName nestedParam))
    | some nestedParamSchema =>
      match validateRequestParam (some nestedParamValue) nestedParamSchema with
      | Except.error e => Except.error e
      | Except.ok (some validationError) => Except.ok (some validationError)
      | Except.ok none => validateObjectMembers rest props
termination_by (sizeOf props, sizeOf fields, 0)
decreasing_by
· simp_wf
  exact Prod.Lex.left _ _ (sizeOf_findPropSchema h)
· simp_wf
  exact Prod.Lex.right _ (Prod.Lex.left _ _ (by simp_arith))

/-- Embeds `validateRequestParam` of restlet.ts: absent values against the
`required` flag; the allowed-values check of "values" schemas; the
declared-type check; then the structural recursion into tuples, arrays and
objects.  A field access the source performs on an absent (undefined)
field of the schema is an `Except.error`, modelling the thrown TypeError. -/
def validateRequestParam (paramValue : Option JSONType) (schema : RestletParamSchema) :
    Except String (Option RestletErrorResponse) :=
  match paramValue with
  | none =>
    if schema.required then
      Except.ok (some (restletError.missingRequiredParam
        (schema.param.getD "[root or array member]")))
    else
      Except.ok none
  | some v =>
    let isInvalidValue := schema.type == SchemaType.values &&
      !(match schema.values with
        | some allowed => allowed.any (fun p => primEq p v)
        | none => false)
    if isInvalidValue then
      Except.ok (some (restletError.wrongParamValue
        (schema.param.getD "[root or array member]") v schema.values))
    else
      match validateRequestParamType v schema with
      | Except.error e => Except.error e
      | Except.ok (some wrongType) => Except.ok (some wrongType)
      | Except.ok none =>
        let paramType := jsonType v
        if schema.type == SchemaType.tuple then
          match h : schema.tupleType with
          | none => Except.error "TypeError: Cannot read properties of undefined"
          | some members => validateTupleMembers v 0 schema.param members
        else if paramType == "array" && schema.type != SchemaType.overloaded then
          match arrayElems v with
          | some elems => validateArrayMembers elems schema.arrayType
          | none => Except.error "TypeError: paramValue is not iterable"
        else if paramType == "object" then
          match h : schema.properties with
          | none => Except.error "TypeError: undefined is not iterable"
          | some props =>
            match objFields v with
            | some fields =>
              (match firstMissingRequiredProp props fields with
               | some e => Except.ok (some e)
               | none => validateObjectMembers fields props)
            | none => Except.error "TypeError: paramValue is not an object"
        else
          Except.ok none
termination_by (sizeOf schema, 0, 1)
decreasing_by
· simp_wf
  exact Prod.Lex.right _ (Prod.Lex.right _ (by omega))
· simp_wf
  exact Prod.Lex.left _ _ (sizeOf_tupleType_some h)
· simp_wf
  exact Prod.Lex.left _ _ (sizeOf_arrayType_lt schema)
· simp_wf
  exact Prod.Lex.left _ _ (sizeOf_properties_some h)

end

/-- Projection equations of the schema record, stated for a constructed
schema so rewriting never unfolds a projection of an abstract schema. -/
@[simp] theorem RestletParamSchema.type_mk (ty : SchemaType) (p : Option String) (r : Bool)
    (a : Option RestletParamSchema) (t pr : Option (List RestletParamSchema))
    (v : Option (List JSONPrimitive)) (o : Option (List RestletParamSchema)) :
    (RestletParamSchema.mk ty p r a t pr v o).type = ty := rfl

/-- Projection equation for `param`. -/
@[simp] theorem RestletParamSchema.param_mk (ty : SchemaType) (p : Option String) (r : Bool)
    (a : Option RestletParamSchema) (t pr : Option (List RestletParamSchema))
    (v : Option (List JSONPrimitive)) (o : Option (List RestletParamSchema)) :
    (RestletParamSchema.mk ty p r a t pr v o).param = p := rfl

/-- Projection equation for `required`. -/
@[simp] theorem RestletParamSchema.required_mk (ty : SchemaType) (p : Option String) (r : Bool)
    (a : Option RestletParamSchema) (t pr : Option (List RestletParamSchema))
    (v : Option (List JSONPrimitive)) (o : Option (List RestletParamSchema)) :
    (RestletParamSchema.mk ty p r a t pr v o).required = r := rfl

/-- Projection equation for `arrayType`. -/
@[simp] theorem RestletParamSchema.arrayType_mk (ty : SchemaType) (p : Option String) (r : Bool)
    (a : Option RestletParamSchema) (t pr : Option (List RestletParamSchema))
    (v : Option (List JSONPrimitive)) (o : Option (List RestletParamSchema)) :
    (RestletParamSchema.mk ty p r a t pr v o).arrayType = a := rfl

/-- Projection equation for `tupleType`. -/
@[simp] theorem RestletParamSchema.tupleType_mk (ty : SchemaType) (p : Option String) (r : Bool)
    (a : Option RestletParamSchema) (t pr : Option (List RestletParamSchema))
    (v : Option (List JSONPrimitive)) (o : Option (List RestletParamSchema)) :
    (RestletParamSchema.mk ty p r a t pr v o).tupleType = t := rfl

/-- Projection equation for `properties`. -/
@[simp] theorem RestletParamSchema.properties_mk (ty : SchemaType) (p : Option String) (r : Bool)
    (a : Option RestletParamSchema) (t pr : Option (List RestletParamSchema))
    (v : Option (List JSONPrimitive)) (o : Option (List RestletParamSchema)) :
    (RestletParamSchema.mk ty p r a t pr v o).properties = pr := rfl

/-- Projection equation for `values`. -/
@[simp] theorem RestletParamSchema.values_mk (ty : SchemaType) (p : Option String) (r : Bool)
    (a : Option RestletParamSchema) (t pr : Option (List RestletParamSchema))
    (v : Option (List JSONPrimitive)) (o : Option (List RestletParamSchema)) :
    (RestletParamSchema.mk ty p r a t pr v o).values = v := rfl

/-- Projection equation for `overloads`. -/
@[simp] theorem RestletParamSchema.overloads_mk (ty : SchemaType) (p : Option String) (r : Bool)
    (a : Option RestletParamSchema) (t pr : Option (List RestletParamSchema))
    (v : Option (List JSONPrimitive)) (o : Option (List RestletParamSchema)) :
    (RestletParamSchema.mk ty p r a t pr v o).overloads = o := rfl

/-- The schema `{type: "number", param: "numberparam", required: true}` of
the concrete scenario of the spec and the test suite. -/
def numberParamSchema : RestletParamSchema :=
  .mk .number (some "numberparam") true none none none none none

/-- The schema `{type: "values", param: "valuesparam", values: ["hello",
"world", "foo", "bar"]}` of the concrete scenario of the spec and the test
suite (its `required` field is absent, hence falsy). -/
def valuesParamSchema : RestletParamSchema :=
  .mk .values (some "valuesparam") false none none none
    (some [.str "hello", .str "world", .str "foo", .str "bar"]) none

/-- C4: validateRequestParam on an absent (undefined) value returns the
missing-required-parameter error naming the schema's param (or
"[root or array member]" when the schema has no param) when the schema is
marked required, and null otherwise; no deeper check of the schema is
consulted, so an optional omitted field is valid whatever its nested
schema would do. -/
theorem C4_absent_value (schema : RestletParamSchema) :
    validateRequestParam none schema =
      (if schema.required then
        Except.ok (some (restletError.missingRequiredParam
          (schema.param.getD "[root or array member]")))
      else
        Except.ok none) := by
  rw [validateRequestParam]


/-- Strict equality never relates a primitive to an array value. -/
theorem primEq_arr (p : JSONPrimitive) (elems : List JSONType) :
    primEq p (JSONType.arr elems) = false := by
  cases p <;> rfl

/-- A value strictly equal to a JSON primitive is itself a primitive, so
its inferred type name is one of the four primitive names. -/
theorem jsonType_of_primEq {p : JSONPrimitive} {v : JSONType} (h : primEq p v = true) :
    jsonType v = "string" ∨ jsonType v = "number" ∨ jsonType v = "boolean" ∨
      jsonType v = "null" := by
  cases p <;> cases v <;> simp_all [primEq, jsonType]

/-- C5: a defined value strictly equal to a member of the allowed set of a
"values" schema is valid (null) with no deeper recursion; a defined value
not in the set yields the Incorrect Parameter Value error naming the value
and the JSON-serialized set; and the concrete scenario of value "baz"
against the valuesparam schema produces exactly the expected 400 record. -/
theorem C5_values_schema (s : RestletParamSchema) (vs : List JSONPrimitive) (v : JSONType)
    (hty : s.type = SchemaType.values) (hvs : s.values = some vs) :
    (vs.any (fun p => primEq p v) = true →
      validateRequestParam (some v) s = Except.ok none) ∧
    (vs.any (fun p => primEq p v) = false →
      validateRequestParam (some v) s = Except.ok (some (restletError.wrongParamValue
        (s.param.getD "[root or array member]") v (some vs)))) ∧
    validateRequestParam (some (JSONType.str "baz")) valuesParamSchema =
      Except.ok (some ⟨400, "Request Error - Incorrect Parameter Value",
        "The parameter 'valuesparam' with the value 'baz' was not found in the expected value list: '[\"hello\",\"world\",\"foo\",\"bar\"]'"⟩) := by
  obtain ⟨ty, pa, rq, at0, tt, pr, vv, ov⟩ := s
  simp at hty hvs
  subst hty
  subst hvs
  refine ⟨?_, ?_, ?_⟩
  · intro hin
    rw [validateRequestParam]
    simp [hin, validateRequestParamType]
    rcases jsonType_of_primEq (List.any_eq_true.mp hin).choose_spec.2 with h | h | h | h <;>
      simp [h]
  · intro hout
    rw [validateRequestParam]
    simp [hout]
  · rw [validateRequestParam]
    simp [validateRequestParamType, valuesParamSchema, jsonType, primEq,
      restletError.wrongParamValue]
    decide

/-- C7: a defined value whose inferred JSON type differs from a declared
type among string/number/boolean/null/object/array yields the
wrong-parameter-type error carrying the schema's param (or
"[root or array member]"), the inferred type name and the declared type
name; a schema typed "primitive" accepts any of string/number/boolean/null
and rejects array/object; and the concrete scenario of value "1" against
the numberparam schema produces exactly the expected 400 record. -/
theorem C7_declared_type_mismatch (s : RestletParamSchema) (v : JSONType) :
    (s.type ∈ [SchemaType.string, SchemaType.number, SchemaType.boolean, SchemaType.null,
        SchemaType.object, SchemaType.array] →
      jsonType v ≠ s.type.name →
      validateRequestParam (some v) s = Except.ok (some (restletError.wrongParamType
        (s.param.getD "[root or array member]") (jsonType v) s.type.name))) ∧
    (s.type = SchemaType.primitive →
      ((jsonType v = "string" ∨ jsonType v = "number" ∨ jsonType v = "boolean" ∨
          jsonType v = "null") →
        validateRequestParam (some v) s = Except.ok none) ∧
      ((jsonType v = "array" ∨ jsonType v = "object") →
        validateRequestParam (some v) s = Except.ok (some (restletError.wrongParamType
          (s.param.getD "[root or array member]") (jsonType v) "primitive")))) ∧
    validateRequestParam (some (JSONType.str "1")) numberParamSchema =
      Except.ok (some ⟨400, "Request Error - Incorrect Parameter Type",
        "The parameter 'numberparam' has the type 'string', but was expected to have the type 'number' instead."⟩) := by
  obtain ⟨ty, pa, rq, at0, tt, pr, vv, ov⟩ := s
  refine ⟨?_, ?_, ?_⟩
  · intro hmem hne
    simp at hmem
    rw [validateRequestParam]
    rcases hmem with rfl | rfl | rfl | rfl | rfl | rfl <;>
      simp_all [validateRequestParamType, SchemaType.name]
  · rintro rfl
    constructor
    · intro hprim
      rw [validateRequestParam]
      rcases hprim with h | h | h | h <;> simp_all [validateRequestParamType, SchemaType.name]
    · intro hstruct
      rw [validateRequestParam]
      rcases hstruct with h | h <;> simp_all [validateRequestParamType, SchemaType.name]
  · rw [validateRequestParam]
    simp [validateRequestParamType, numberParamSchema, jsonType, restletError.wrongParamType,
      SchemaType.name]

/-- The object schema of the length-key scenario: it declares the single
property `{param: "length", type: "number", required: true}`, which the
input `{"length": 1}` would satisfy if the object branch were reached. -/
def lengthObjSchema : RestletParamSchema :=
  .mk .object (some "lenobj") true none none
    (some [.mk .number (some "length") true none none none none none]) none none

/-- C10: `jsonType` classifies an object owning a key named "length" as
"array" before the plain-object check runs, so validating the object
`{"length": 1}` against an "object" schema reports a wrong-parameter-type
error with actual type "array" instead of recursing into the declared
properties (which the input would satisfy). -/
theorem C10_length_key_classified_as_array :
    jsonType (JSONType.obj [("length", JSONType.num 1)]) = "array" ∧
    validateRequestParam (some (JSONType.obj [("length", JSONType.num 1)])) lengthObjSchema =
      Except.ok (some (restletError.wrongParamType "lenobj" "array" "object")) := by
  constructor
  · rfl
  · rw [validateRequestParam]
    simp [validateRequestParamType, lengthObjSchema, jsonType, SchemaType.name]

/-- The tuple loop walks past a block of positions that all hold a value
validating without error. -/
theorem validateTupleMembers_append (v : JSONType) (p : Option String)
    (ts1 ts2 : List RestletParamSchema) :
    ∀ idx, (∀ i (hi : i < ts1.length), ∃ e, jsIndex v (idx + i) = some e ∧
      validateRequestParam (some e) ts1[i] = Except.ok none) →
    validateTupleMembers v idx p (ts1 ++ ts2) = validateTupleMembers v (idx + ts1.length) p ts2 := by
  induction ts1 with
  | nil => intro idx h; simp
  | cons t rest ih =>
    intro idx h
    obtain ⟨e, he, hv⟩ := h 0 (by simp)
    rw [List.cons_append, validateTupleMembers]
    simp only [Nat.add_zero] at he
    simp only [List.getElem_cons_zero] at hv
    simp only [he, hv]
    have := ih (idx + 1) (fun i hi => by
      obtain ⟨e', he', hv'⟩ := h (i + 1) (by simpa using Nat.succ_lt_succ hi)
      refine ⟨e', ?_, ?_⟩
      · rw [show idx + 1 + i = idx + (i + 1) by omega]
        exact he'
      · simpa using hv')
    rw [this]
    congr 1
    simp
    omega

/-- The tuple loop on an array shorter than the schema, all present
positions validating: the missing-required error names the first index
with no element, which is the array's length. -/
theorem validateTupleMembers_short (elems : List JSONType) (p : Option String)
    (ts : List RestletParamSchema) (hlen : elems.length < ts.length)
    (hok : ∀ i (h1 : i < elems.length) (h2 : i < ts.length),
      validateRequestParam (some elems[i]) ts[i] = Except.ok none) :
    validateTupleMembers (JSONType.arr elems) 0 p ts =
      Except.ok (some (restletError.missingRequiredParam
        ((p.getD "[root or array member]") ++ " tuple, index " ++ toString elems.length))) := by
  have htk : (ts.take elems.length).length = elems.length := by
    simp
    omega
  have happ := validateTupleMembers_append (JSONType.arr elems) p
    (ts.take elems.length) (ts.drop elems.length) 0 (fun i hi => by
      rw [htk] at hi
      refine ⟨elems[i], ?_, ?_⟩
      · simp [jsIndex, List.getElem?_eq_getElem hi]
      · rw [List.getElem_take]
        exact hok i hi (by omega))
  rw [List.take_append_drop] at happ
  rw [happ, htk]
  rw [List.drop_eq_getElem_cons hlen, validateTupleMembers]
  have : jsIndex (JSONType.arr elems) (0 + elems.length) = none := by
    simp [jsIndex]
  simp only [this]
  simp

/-- The tuple loop on an array at least as long as the schema, every
declared position validating: no error, whatever trailing elements
remain unchecked. -/
theorem validateTupleMembers_all_ok (elems : List JSONType) (p : Option String)
    (ts : List RestletParamSchema) (hlen : ts.length ≤ elems.length)
    (hok : ∀ i (h1 : i < elems.length) (h2 : i < ts.length),
      validateRequestParam (some elems[i]) ts[i] = Except.ok none) :
    validateTupleMembers (JSONType.arr elems) 0 p ts = Except.ok none := by
  have happ := validateTupleMembers_append (JSONType.arr elems) p ts [] 0 (fun i hi => by
    refine ⟨elems[i], ?_, ?_⟩
    · simp [jsIndex, List.getElem?_eq_getElem (by omega : i < elems.length)]
    · exact hok i (by omega) hi)
  rw [List.append_nil] at happ
  rw [happ, validateTupleMembers]

/-- The tuple loop surfaces the error of the first failing position when
every earlier position validates. -/
theorem validateTupleMembers_first_error (elems : List JSONType) (p : Option String)
    (ts : List RestletParamSchema) (j : Nat) (hj : j < ts.length) (hje : j < elems.length)
    (err : RestletErrorResponse)
    (hok : ∀ i (h1 : i < elems.length) (h2 : i < j),
      validateRequestParam (some elems[i]) ts[i] = Except.ok none)
    (hfail : validateRequestParam (some elems[j]) ts[j] = Except.ok (some err)) :
    validateTupleMembers (JSONType.arr elems) 0 p ts = Except.ok (some err) := by
  have htk : (ts.take j).length = j := by
    simp
    omega
  have happ := validateTupleMembers_append (JSONType.arr elems) p
    (ts.take j) (ts.drop j) 0 (fun i hi => by
      rw [htk] at hi
      refine ⟨elems[i], ?_, ?_⟩
      · simp [jsIndex, List.getElem?_eq_getElem (by omega : i < elems.length)]
      · rw [List.getElem_take]
        exact hok i (by omega) hi)
  rw [List.take_append_drop] at happ
  rw [happ, htk]
  rw [List.drop_eq_getElem_cons hj, validateTupleMembers]
  have hidx : jsIndex (JSONType.arr elems) (0 + j) = some elems[j] := by
    simp [jsIndex, List.getElem?_eq_getElem hje]
  simp only [hidx, hfail]

/-- C6 (amended): positions of a "tuple" schema are validated in index
order with the first failure returned.  When the array is shorter than the
schema and every position holding an element validates, the result is the
missing-required error naming "<param or root> tuple, index i" with i the
array's length (the first index with no element); when the array is at
least as long and every declared position validates, the result is null
with trailing elements unchecked; and the error of the first failing
position is returned when all earlier positions validate. -/
theorem C6_tuple_validation (s : RestletParamSchema) (ts : List RestletParamSchema)
    (elems : List JSONType) (hty : s.type = SchemaType.tuple) (hts : s.tupleType = some ts) :
    (elems.length < ts.length →
      (∀ i (h1 : i < elems.length) (h2 : i < ts.length),
        validateRequestParam (some elems[i]) ts[i] = Except.ok none) →
      validateRequestParam (some (JSONType.arr elems)) s =
        Except.ok (some (restletError.missingRequiredParam
          ((s.param.getD "[root or array member]") ++ " tuple, index " ++
            toString elems.length)))) ∧
    (ts.length ≤ elems.length →
      (∀ i (h1 : i < elems.length) (h2 : i < ts.length),
        validateRequestParam (some elems[i]) ts[i] = Except.ok none) →
      validateRequestParam (some (JSONType.arr elems)) s = Except.ok none) ∧
    (∀ j (hj : j < ts.length) (hje : j < elems.length) (err : RestletErrorResponse),
      (∀ i (h1 : i < elems.length) (h2 : i < j),
        validateRequestParam (some elems[i]) ts[i] = Except.ok none) →
      validateRequestParam (some elems[j]) ts[j] = Except.ok (some err) →
      validateRequestParam (some (JSONType.arr elems)) s = Except.ok (some err)) := by
  obtain ⟨ty, pa, rq, at0, tt, pr, vv, ov⟩ := s
  simp at hty hts
  subst hty
  subst hts
  have entry : validateRequestParam (some (JSONType.arr elems))
      (RestletParamSchema.mk SchemaType.tuple pa rq at0 (some ts) pr vv ov) =
      validateTupleMembers (JSONType.arr elems) 0 pa ts := by
    rw [validateRequestParam]
    simp [validateRequestParamType, jsonType, SchemaType.name]
  refine ⟨?_, ?_, ?_⟩
  · intro hlen hok
    rw [entry]
    simpa using validateTupleMembers_short elems pa ts hlen hok
  · intro hlen hok
    rw [entry]
    exact validateTupleMembers_all_ok elems pa ts hlen hok
  · intro j hj hje err hok hfail
    rw [entry]
    exact validateTupleMembers_first_error elems pa ts j hj hje err hok hfail

/-- The tuple schema (number, number) named "pair" of the C6 counterexample. -/
def pairTupleSchema : RestletParamSchema :=
  .mk .tuple (some "pair") true none
    (some [.mk .number none false none none none none none,
           .mk .number none false none none none none none]) none none none

/-- C6 counterexample: against the tuple schema (number, number), the
too-short array ["x"] does not produce the missing-required error the
claim promises for every short array; position 0 fails first and its
incorrect-type error is returned instead. -/
theorem C6_counterexample :
    validateRequestParam (some (JSONType.arr [JSONType.str "x"])) pairTupleSchema =
      Except.ok (some (restletError.wrongParamType "[root or array member]" "string" "number")) ∧
    restletError.wrongParamType "[root or array member]" "string" "number" ≠
      restletError.missingRequiredParam "pair tuple, index 1" := by
  constructor
  · rw [validateRequestParam]
    simp [validateRequestParamType, pairTupleSchema, jsonType, SchemaType.name,
      validateTupleMembers, jsIndex]
    rw [validateRequestParam]
    simp [validateRequestParamType, jsonType, SchemaType.name]
  · decide

/-- C6 witness: the amended theorem applied at the concrete too-short
array [7] against the (number, number) tuple schema. -/
theorem C6_witness :
    validateRequestParam (some (JSONType.arr [JSONType.num 7]))
      (RestletParamSchema.mk SchemaType.tuple (some "pair") true none
        (some [RestletParamSchema.mk SchemaType.number none false none none none none none,
               RestletParamSchema.mk SchemaType.number none false none none none none none])
        none none none) =
      Except.ok (some (restletError.missingRequiredParam "pair tuple, index 1")) := by
  have h := (C6_tuple_validation
    (RestletParamSchema.mk SchemaType.tuple (some "pair") true none
      (some [RestletParamSchema.mk SchemaType.number none false none none none none none,
             RestletParamSchema.mk SchemaType.number none false none none none none none])
      none none none)
    [RestletParamSchema.mk SchemaType.number none false none none none none none,
     RestletParamSchema.mk SchemaType.number none false none none none none none]
    [JSONType.num 7] rfl rfl).1
  have := h (by decide) (fun i h1 h2 => by
    have hi : i = 0 := by simpa [Nat.lt_one_iff] using h1
    subst hi
    rw [validateRequestParam]
    simp [validateRequestParamType, jsonType, SchemaType.name])
  simpa using this

/-- The array loop walks past a prefix of elements that all validate
without error. -/
theorem validateArrayMembers_append (sch : RestletParamSchema) (pre rest : List JSONType)
    (h : ∀ e ∈ pre, validateRequestParam (some e) sch = Except.ok none) :
    validateArrayMembers (pre ++ rest) (some sch) = validateArrayMembers rest (some sch) := by
  induction pre with
  | nil => simp
  | cons e pre' ih =>
    rw [List.cons_append, validateArrayMembers]
    simp only [h e (by simp)]
    exact ih (fun e' he' => h e' (by simp [he']))

/-- An array-of-number schema, as the test suite's arrayparam. -/
def numberArraySchema : RestletParamSchema :=
  .mk .array (some "arrayparam") true
    (some (.mk .number none false none none none none none)) none none none none

/-- C8: every element of an array value is validated against the single
element schema in index order; the error (or thrown exception) of the
lowest-index failing element is returned with later elements unchecked;
and when all elements pass, including the empty array, the result is null
with no further checks. -/
theorem C8_array_validation (s : RestletParamSchema) (elemSchema : RestletParamSchema)
    (elems : List JSONType) (hty : s.type = SchemaType.array)
    (hat : s.arrayType = some elemSchema) :
    ((∀ e ∈ elems, validateRequestParam (some e) elemSchema = Except.ok none) →
      validateRequestParam (some (JSONType.arr elems)) s = Except.ok none) ∧
    (∀ pre e post (err : RestletErrorResponse), elems = pre ++ e :: post →
      (∀ e2 ∈ pre, validateRequestParam (some e2) elemSchema = Except.ok none) →
      validateRequestParam (some e) elemSchema = Except.ok (some err) →
      validateRequestParam (some (JSONType.arr elems)) s = Except.ok (some err)) ∧
    (∀ pre e post (msg : String), elems = pre ++ e :: post →
      (∀ e2 ∈ pre, validateRequestParam (some e2) elemSchema = Except.ok none) →
      validateRequestParam (some e) elemSchema = Except.error msg →
      validateRequestParam (some (JSONType.arr elems)) s = Except.error msg) := by
  obtain ⟨ty, pa, rq, at0, tt, pr, vv, ov⟩ := s
  simp at hty hat
  subst hty
  subst hat
  have entry : validateRequestParam (some (JSONType.arr elems))
      (RestletParamSchema.mk SchemaType.array pa rq (some elemSchema) tt pr vv ov) =
      validateArrayMembers elems (some elemSchema) := by
    rw [validateRequestParam]
    simp [validateRequestParamType, jsonType, SchemaType.name, arrayElems]
  refine ⟨?_, ?_, ?_⟩
  · intro hok
    rw [entry]
    have := validateArrayMembers_append elemSchema elems [] hok
    simpa [validateArrayMembers] using this
  · intro pre e post err hsplit hok hfail
    rw [entry, hsplit, validateArrayMembers_append elemSchema pre _ hok,
      validateArrayMembers]
    simp only [hfail]
  · intro pre e post msg hsplit hok hfail
    rw [entry, hsplit, validateArrayMembers_append elemSchema pre _ hok,
      validateArrayMembers]
    simp only [hfail]

/-- C8 witness: the theorem applied at the concrete arrays [2, 3] (all
elements pass) and [2, "3", true] (index 1 fails first) against the
array-of-number schema. -/
theorem C8_witness :
    validateRequestParam (some (JSONType.arr [JSONType.num 2, JSONType.num 3]))
      numberArraySchema = Except.ok none ∧
    validateRequestParam (some (JSONType.arr [JSONType.num 2, JSONType.str "3", JSONType.bool true]))
      numberArraySchema =
      Except.ok (some (restletError.wrongParamType "[root or array member]" "string" "number")) := by
  constructor
  · exact (C8_array_validation numberArraySchema
      (RestletParamSchema.mk SchemaType.number none false none none none none none)
      [JSONType.num 2, JSONType.num 3] rfl rfl).1 (fun e he => by
      simp at he
      rcases he with rfl | rfl
      all_goals rw [validateRequestParam]
      all_goals simp [validateRequestParamType, jsonType, SchemaType.name])
  · exact (C8_array_validation numberArraySchema
      (RestletParamSchema.mk SchemaType.number none false none none none none none)
      [JSONType.num 2, JSONType.str "3", JSONType.bool true] rfl rfl).2.1
      [JSONType.num 2] (JSONType.str "3") [JSONType.bool true] _ rfl
      (fun e2 he2 => by
        simp at he2
        subst he2
        rw [validateRequestParam]
        simp [validateRequestParamType, jsonType, SchemaType.name])
      (by
        rw [validateRequestParam]
        simp [validateRequestParamType, jsonType, SchemaType.name])

/-- The first pass of the object branch finds the first declared property
that is required and absent, past any prefix of satisfied ones. -/
theorem firstMissingRequiredProp_found (fields : List (String × JSONType))
    (ps1 ps2 : List RestletParamSchema) (p : RestletParamSchema)
    (hpre : ∀ q ∈ ps1, q.required = true → hasPropertyKey fields (q.param.getD "undefined") = true)
    (hreq : p.required = true) (habs : hasPropertyKey fields (p.param.getD "undefined") = false) :
    firstMissingRequiredProp (ps1 ++ p :: ps2) fields =
      some (restletError.missingRequiredParam (p.param.getD "undefined")) := by
  induction ps1 with
  | nil =>
    rw [List.nil_append, firstMissingRequiredProp]
    simp [habs, hreq]
  | cons q rest ih =>
    rw [List.cons_append, firstMissingRequiredProp]
    have hcond : (!hasPropertyKey fields (q.param.getD "undefined") && q.required) = false := by
      by_cases hqr : q.required = true
      · simp [hpre q (by simp) hqr]
      · simp at hqr
        simp [hqr]
    rw [hcond]
    simp only [Bool.false_eq_true, if_false]
    exact ih (fun q' hq' => hpre q' (by simp [hq']))

/-- The first pass of the object branch finds nothing when every required
declared property is an own key of the value. -/
theorem firstMissingRequiredProp_none (fields : List (String × JSONType))
    (props : List RestletParamSchema)
    (h : ∀ q ∈ props, q.required = true → hasPropertyKey fields (q.param.getD "undefined") = true) :
    firstMissingRequiredProp props fields = none := by
  induction props with
  | nil => rw [firstMissingRequiredProp]
  | cons q rest ih =>
    rw [firstMissingRequiredProp]
    have hcond : (!hasPropertyKey fields (q.param.getD "undefined") && q.required) = false := by
      by_cases hqr : q.required = true
      · simp [h q (by simp) hqr]
      · simp at hqr
        simp [hqr]
    rw [hcond]
    simp only [Bool.false_eq_true, if_false]
    exact ih (fun q' hq' => h q' (by simp [hq']))

/-- The second pass of the object branch walks past a prefix of fields
whose keys are declared and whose values validate without error. -/
theorem validateObjectMembers_append (props : List RestletParamSchema)
    (fs1 rest : List (String × JSONType))
    (h : ∀ kv ∈ fs1, ∃ sch, findPropSchema kv.1 props = some sch ∧
      validateRequestParam (some kv.2) sch = Except.ok none) :
    validateObjectMembers (fs1 ++ rest) props = validateObjectMembers rest props := by
  induction fs1 with
  | nil => simp
  | cons kv fs' ih =>
    obtain ⟨k, val⟩ := kv
    obtain ⟨sch, hfind, hok⟩ := h (k, val) (by simp)
    have hfind2 : findPropSchema k props = some sch := hfind
    have hok2 : validateRequestParam (some val) sch = Except.ok none := hok
    rw [List.cons_append]
    simp only [validateObjectMembers]
    split
    · next heq =>
      rw [hfind2] at heq
      cases heq
    · next sch2 heq =>
      rw [hfind2] at heq
      injection heq with heq2
      subst heq2
      simp only [hok2]
      exact ih (fun kv' hkv' => h kv' (by simp [hkv']))

/-- C3 (amended): in the object branch, the missing-required pass runs
first: when some declared required property is absent in the sense of the
`in` operator (its name is neither an own key of the input nor an
inherited `Object.prototype` member name), the result is the
missing-required error of the first such property in declaration order,
even if the input also contains undeclared keys.  An undeclared key yields
the wrong-parameter-name error naming it when no required declared
property is `in`-absent and every earlier field (in insertion order) is
declared and validates without error. -/
theorem C3_object_precedence (s : RestletParamSchema) (props : List RestletParamSchema)
    (fields : List (String × JSONType)) (hty : s.type = SchemaType.object)
    (hpr : s.properties = some props) (hlen : (fields.lookup "length") = none) :
    (∀ ps1 p ps2, props = ps1 ++ p :: ps2 →
      (∀ q ∈ ps1, q.required = true → hasPropertyKey fields (q.param.getD "undefined") = true) →
      p.required = true → hasPropertyKey fields (p.param.getD "undefined") = false →
      validateRequestParam (some (JSONType.obj fields)) s =
        Except.ok (some (restletError.missingRequiredParam (p.param.getD "undefined")))) ∧
    (∀ fs1 k val fs2, fields = fs1 ++ (k, val) :: fs2 →
      (∀ q ∈ props, q.required = true → hasPropertyKey fields (q.param.getD "undefined") = true) →
      findPropSchema k props = none →
      (∀ kv ∈ fs1, ∃ sch, findPropSchema kv.1 props = some sch ∧
        validateRequestParam (some kv.2) sch = Except.ok none) →
      validateRequestParam (some (JSONType.obj fields)) s =
        Except.ok (some (restletError.wrongParamName k))) := by
  obtain ⟨ty, pa, rq, at0, tt, pr, vv, ov⟩ := s
  simp at hty hpr
  subst hty
  subst hpr
  have entry : validateRequestParam (some (JSONType.obj fields))
      (RestletParamSchema.mk SchemaType.object pa rq at0 tt (some props) vv ov) =
      (match firstMissingRequiredProp props fields with
       | some e => Except.ok (some e)
       | none => validateObjectMembers fields props) := by
    rw [validateRequestParam]
    simp [validateRequestParamType, jsonType, hlen, SchemaType.name, objFields]
  constructor
  · intro ps1 p ps2 hsplit hpre hreq habs
    rw [entry, hsplit, firstMissingRequiredProp_found fields ps1 ps2 p hpre hreq habs]
  · intro fs1 k val fs2 hsplit hnomiss hfind hok
    rw [entry, firstMissingRequiredProp_none fields props hnomiss]
    rw [hsplit, validateObjectMembers_append props fs1 _ hok]
    simp only [validateObjectMembers]
    split
    · rfl
    · next sch2 heq =>
      rw [hfind] at heq
      cases heq

/-- An object schema with the single required property "a" (a number). -/
def objASchema : RestletParamSchema :=
  .mk .object (some "payload") true none none
    (some [.mk .number (some "a") true none none none none none]) none none

/-- An object schema with the single optional property "a" (a number). -/
def objAOptSchema : RestletParamSchema :=
  .mk .object (some "payload") true none none
    (some [.mk .number (some "a") false none none none none none]) none none

/-- C3 counterexample: the input {"b": 1} against the schema requiring
property "a" both omits a required property and carries the undeclared
key "b"; the code returns the missing-required error for "a", not the
wrong-parameter-name error for "b" the claim promises. -/
theorem C3_counterexample :
    validateRequestParam (some (JSONType.obj [("b", JSONType.num 1)])) objASchema =
      Except.ok (some (restletError.missingRequiredParam "a")) ∧
    restletError.missingRequiredParam "a" ≠ restletError.wrongParamName "b" := by
  constructor
  · rw [validateRequestParam]
    simp [validateRequestParamType, objASchema, jsonType, SchemaType.name,
      firstMissingRequiredProp, hasPropertyKey, objectPrototypeMembers, objFields]
  · decide

/-- C3 witness: the amended theorem applied at the concrete inputs {} (a
required property missing) and {"b": 1} against an all-optional schema
(an undeclared key with no missing required property). -/
theorem C3_witness :
    validateRequestParam (some (JSONType.obj [])) objASchema =
      Except.ok (some (restletError.missingRequiredParam "a")) ∧
    validateRequestParam (some (JSONType.obj [("b", JSONType.num 1)])) objAOptSchema =
      Except.ok (some (restletError.wrongParamName "b")) := by
  constructor
  · exact (C3_object_precedence objASchema
      [RestletParamSchema.mk .number (some "a") true none none none none none] [] rfl rfl rfl).1
      [] (RestletParamSchema.mk .number (some "a") true none none none none none) [] rfl
      (by simp) rfl (by decide)
  · exact (C3_object_precedence objAOptSchema
      [RestletParamSchema.mk .number (some "a") false none none none none none]
      [("b", JSONType.num 1)] rfl rfl rfl).2
      [] "b" (JSONType.num 1) [] rfl
      (fun q hq => by
        simp at hq
        subst hq
        simp)
      rfl
      (by simp)

/-- C5 witness: the theorem applied at the concrete values "foo" (in the
allowed set) and 9 (not in the set) against the valuesparam schema. -/
theorem C5_witness :
    validateRequestParam (some (JSONType.str "foo")) valuesParamSchema = Except.ok none ∧
    validateRequestParam (some (JSONType.num 9)) valuesParamSchema =
      Except.ok (some (restletError.wrongParamValue "valuesparam" (JSONType.num 9)
        (some [JSONPrimitive.str "hello", JSONPrimitive.str "world", JSONPrimitive.str "foo",
          JSONPrimitive.str "bar"]))) := by
  constructor
  · exact (C5_values_schema valuesParamSchema _ (JSONType.str "foo") rfl rfl).1 rfl
  · exact (C5_values_schema valuesParamSchema _ (JSONType.num 9) rfl rfl).2.1 rfl

/-- C1 (amended): overload resolution counts only incorrect-type and
incorrect-value outcomes as votes against the value.  When fewer than all
alternatives produce such an error (so at least one returns no error or an
error of another category, the latter being discarded rather than
surfaced), the value is accepted, yielding null for any non-object value
(an accepted object value instead crashes in the object branch, see the
counterexample); when every alternative produces an incorrect-type or
incorrect-value error, the result is the wrong-parameter-type error whose
expected-type text lists each alternative's tag with nested element types
in parentheses for array and tuple alternatives, as the concrete
description in the third conjunct shows. -/
theorem C1_overload_resolution (s : RestletParamSchema) (l : List RestletParamSchema)
    (v : JSONType) (results : List (Option RestletErrorResponse))
    (hty : s.type = SchemaType.overloaded) (hov : s.overloads = some l)
    (hres : validateOverloads v l = Except.ok results) :
    ((results.filter isTypeOrValueError).length ≠ l.length → jsonType v ≠ "object" →
      validateRequestParam (some v) s = Except.ok none) ∧
    ((results.filter isTypeOrValueError).length = l.length →
      validateRequestParam (some v) s = Except.ok (some (restletError.wrongParamType
        (s.param.getD "[root or array member]") (jsonType v) (overloadDescription l)))) ∧
    overloadDescription
      [RestletParamSchema.mk .number none false none none none none none,
       RestletParamSchema.mk .array none false
         (some (RestletParamSchema.mk .string none false none none none none none))
         none none none none,
       RestletParamSchema.mk .tuple none false none
         (some [RestletParamSchema.mk .number none false none none none none none,
                RestletParamSchema.mk .string none false none none none none none])
         none none none] = "number | array (string) | tuple (number, string)" := by
  obtain ⟨ty, pa, rq, at0, tt, pr, vv, ov⟩ := s
  simp at hty hov
  subst hty
  subst hov
  refine ⟨?_, ?_, ?_⟩
  · intro hne hnobj
    rw [validateRequestParam]
    simp [validateRequestParamType, hres, hne, hnobj, SchemaType.name]
  · intro heq
    rw [validateRequestParam]
    simp [validateRequestParamType, hres, heq, SchemaType.name]
  · rfl

/-- A bare number schema, as overload alternatives carry. -/
def numAltSchema : RestletParamSchema :=
  .mk .number none false none none none none none

/-- A (number, number) tuple alternative. -/
def tupleAltSchema : RestletParamSchema :=
  .mk .tuple none false none (some [numAltSchema, numAltSchema]) none none none

/-- An overloaded schema whose only alternative is the (number, number)
tuple. -/
def tupleOverloadedSchema : RestletParamSchema :=
  .mk .overloaded (some "over") true none none none none (some [tupleAltSchema])

/-- An object alternative declaring no properties. -/
def emptyObjAltSchema : RestletParamSchema :=
  .mk .object none false none none (some []) none none

/-- An overloaded schema whose only alternative is the empty-properties
object schema. -/
def objOverloadedSchema : RestletParamSchema :=
  .mk .overloaded (some "over2") true none none none none (some [emptyObjAltSchema])

/-- C1 counterexample: the too-short tuple value [1] makes the only
alternative fail with a missing-required-parameter error (not an
incorrect-type/value category); the claim says that error is surfaced
immediately, but the code discards it and accepts the value (null).
Moreover, for an object value accepted by an alternative, the claimed
null result does not occur either: validation throws (modelled as
Except.error) in the object branch. -/
theorem C1_counterexample :
    validateRequestParam (some (JSONType.arr [JSONType.num 1])) tupleAltSchema =
      Except.ok (some (restletError.missingRequiredParam "[root or array member] tuple, index 1")) ∧
    (restletError.missingRequiredParam "[root or array member] tuple, index 1").name ∉
      ["Request Error - Incorrect Parameter Type", "Request Error - Incorrect Parameter Value"] ∧
    validateRequestParam (some (JSONType.arr [JSONType.num 1])) tupleOverloadedSchema =
      Except.ok none ∧
    validateRequestParam (some (JSONType.obj [])) emptyObjAltSchema = Except.ok none ∧
    validateRequestParam (some (JSONType.obj [])) objOverloadedSchema =
      Except.error "TypeError: undefined is not iterable" := by
  have halt : validateRequestParam (some (JSONType.arr [JSONType.num 1])) tupleAltSchema =
      Except.ok (some (restletError.missingRequiredParam
        "[root or array member] tuple, index 1")) := by
    rw [validateRequestParam]
    simp [validateRequestParamType, tupleAltSchema, numAltSchema, jsonType, SchemaType.name,
      validateTupleMembers, jsIndex]
    rw [validateRequestParam]
    simp [validateRequestParamType, jsonType, SchemaType.name, validateTupleMembers,
      restletError.missingRequiredParam]
    decide
  have hobjalt : validateRequestParam (some (JSONType.obj [])) emptyObjAltSchema =
      Except.ok none := by
    rw [validateRequestParam]
    simp [validateRequestParamType, emptyObjAltSchema, jsonType, SchemaType.name, objFields,
      firstMissingRequiredProp, validateObjectMembers]
  have hTV1 : isTypeOrValueError (some (restletError.missingRequiredParam
      "[root or array member] tuple, index 1")) = false := by decide
  have hTV2 : isTypeOrValueError none = false := by decide
  refine ⟨halt, by decide, ?_, hobjalt, ?_⟩
  · rw [validateRequestParam]
    simp [validateRequestParamType, tupleOverloadedSchema, validateOverloads, halt,
      hTV1, jsonType, SchemaType.name]
  · rw [validateRequestParam]
    simp [validateRequestParamType, objOverloadedSchema, validateOverloads, hobjalt,
      hTV2, jsonType, SchemaType.name, objFields]

/-- An overloaded schema with a single number alternative. -/
def numOverloaded3Schema : RestletParamSchema :=
  .mk .overloaded (some "over3") true none none none none (some [numAltSchema])

/-- C1 witness: the amended theorem applied at the concrete values 3
(accepted, non-object) and "hi" (every alternative votes incorrect type)
against the single-number-overload schema. -/
theorem C1_witness :
    validateRequestParam (some (JSONType.num 3)) numOverloaded3Schema = Except.ok none ∧
    validateRequestParam (some (JSONType.str "hi")) numOverloaded3Schema =
      Except.ok (some (restletError.wrongParamType "over3" "string" "number")) := by
  have hnum : validateRequestParam (some (JSONType.num 3)) numAltSchema = Except.ok none := by
    rw [validateRequestParam]
    simp [validateRequestParamType, numAltSchema, jsonType, SchemaType.name]
  have hstr : validateRequestParam (some (JSONType.str "hi")) numAltSchema =
      Except.ok (some (restletError.wrongParamType "[root or array member]" "string" "number")) := by
    rw [validateRequestParam]
    simp [validateRequestParamType, numAltSchema, jsonType, SchemaType.name]
  constructor
  · exact (C1_overload_resolution numOverloaded3Schema [numAltSchema] (JSONType.num 3) [none]
      rfl rfl (by simp [validateOverloads, hnum])).1 (by decide) (by decide)
  · exact (C1_overload_resolution numOverloaded3Schema [numAltSchema] (JSONType.str "hi")
      [some (restletError.wrongParamType "[root or array member]" "string" "number")] rfl rfl
      (by simp [validateOverloads, hstr])).2.1 (by decide)

/-- The error-record invariant: status 400 and one of the four fixed
category names. -/
def goodError (r : RestletErrorResponse) : Prop :=
  r.status = 400 ∧ r.name ∈ ["Request Error - Missing Required Parameter",
    "Request Error - Invalid Parameter Name", "Request Error - Incorrect Parameter Type",
    "Request Error - Incorrect Parameter Value"]

/-- The missing-required constructor satisfies the invariant. -/
theorem goodError_missing (n : String) : goodError (restletError.missingRequiredParam n) := by
  simp [goodError, restletError.missingRequiredParam]

/-- The wrong-name constructor satisfies the invariant. -/
theorem goodError_wrongName (n : String) : goodError (restletError.wrongParamName n) := by
  simp [goodError, restletError.wrongParamName]

/-- The wrong-type constructor satisfies the invariant. -/
theorem goodError_wrongType (n t e : String) : goodError (restletError.wrongParamType n t e) := by
  simp [goodError, restletError.wrongParamType]

/-- The wrong-value constructor satisfies the invariant. -/
theorem goodError_wrongValue (n : String) (v : JSONType) (vs : Option (List JSONPrimitive)) :
    goodError (restletError.wrongParamValue n v vs) := by
  simp [goodError, restletError.wrongParamValue]

/-- Every error the type check returns satisfies the invariant (it only
ever builds wrong-parameter-type records). -/
theorem validateRequestParamType_good (v : JSONType) (s : RestletParamSchema)
    (r : RestletErrorResponse) (h : validateRequestParamType v s = Except.ok (some r)) :
    goodError r := by
  rw [validateRequestParamType] at h
  split at h
  · split at h
    · cases h
    · split at h
      · cases h
      · split at h
        · injection h with h2
          injection h2 with h3
          subst h3
          exact goodError_wrongType _ _ _
        · cases h
  · dsimp only at h
    split at h
    · injection h with h2
      injection h2 with h3
      subst h3
      exact goodError_wrongType _ _ _
    · cases h

/-- Every error of the missing-required pass satisfies the invariant. -/
theorem firstMissingRequiredProp_good (props : List RestletParamSchema)
    (fields : List (String × JSONType)) (r : RestletErrorResponse)
    (h : firstMissingRequiredProp props fields = some r) : goodError r := by
  induction props with
  | nil => rw [firstMissingRequiredProp] at h; cases h
  | cons p rest ih =>
    rw [firstMissingRequiredProp] at h
    split at h
    · injection h with h2
      subst h2
      exact goodError_missing _
    · exact ih h

/-- Every error of the tuple loop satisfies the invariant, given that the
member schemas' validations do. -/
theorem validateTupleMembers_good (v : JSONType) (p : Option String) :
    ∀ (members : List RestletParamSchema) (idx : Nat),
    (∀ t ∈ members, ∀ w (r : RestletErrorResponse),
      validateRequestParam w t = Except.ok (some r) → goodError r) →
    ∀ r, validateTupleMembers v idx p members = Except.ok (some r) → goodError r := by
  intro members
  induction members with
  | nil =>
    intro idx hm r h
    rw [validateTupleMembers] at h
    cases h
  | cons t rest ih =>
    intro idx hm r h
    rw [validateTupleMembers] at h
    split at h
    · injection h with h2
      injection h2 with h3
      subst h3
      exact goodError_missing _
    · split at h
      · cases h
      · next heq =>
        injection h with h2
        injection h2 with h3
        subst h3
        exact hm t (by simp) _ _ heq
      · exact ih (idx + 1) (fun t2 ht2 => hm t2 (by simp [ht2])) r h

/-- Every error of the array loop satisfies the invariant, given that the
element schema's validations do. -/
theorem validateArrayMembers_good (ao : Option RestletParamSchema)
    (hm : ∀ a, ao = some a → ∀ w (r : RestletErrorResponse),
      validateRequestParam w a = Except.ok (some r) → goodError r) :
    ∀ (elems : List JSONType) r, validateArrayMembers elems ao = Except.ok (some r) →
      goodError r := by
  intro elems
  induction elems with
  | nil =>
    intro r h
    rw [validateArrayMembers.eq_def] at h
    simp at h
  | cons e rest ih =>
    intro r h
    rw [validateArrayMembers.eq_def] at h
    dsimp only at h
    split at h
    · cases h
    · next a =>
      split at h
      · cases h
      · next heq =>
        injection h with h2
        injection h2 with h3
        subst h3
        exact hm a rfl _ _ heq
      · exact ih r h

/-- Every error of the object second pass satisfies the invariant, given
that the found property schemas' validations do. -/
theorem validateObjectMembers_good (props : List RestletParamSchema)
    (hm : ∀ sch k, findPropSchema k props = some sch → ∀ w (r : RestletErrorResponse),
      validateRequestParam w sch = Except.ok (some r) → goodError r) :
    ∀ (fields : List (String × JSONType)) r,
      validateObjectMembers fields props = Except.ok (some r) → goodError r := by
  intro fields
  induction fields with
  | nil =>
    intro r h
    rw [validateObjectMembers] at h
    cases h
  | cons kv rest ih =>
    intro r h
    obtain ⟨k, val⟩ := kv
    rw [validateObjectMembers] at h
    split at h
    · injection h with h2
      injection h2 with h3
      subst h3
      exact goodError_wrongName _
    · next sch hfind =>
      split at h
      · cases h
      · next heq =>
        injection h with h2
        injection h2 with h3
        subst h3
        exact hm sch k hfind _ _ heq
      · exact ih r h

/-- C9: every non-null error record validateRequestParam returns, for any
schema and any input, has status exactly 400 and one of the four fixed
category names (the message interpolations are built by the four
constructors above). -/
theorem C9_error_record_invariant :
    ∀ (v : Option JSONType) (s : RestletParamSchema) (r : RestletErrorResponse),
      validateRequestParam v s = Except.ok (some r) →
      r.status = 400 ∧ r.name ∈ ["Request Error - Missing Required Parameter",
        "Request Error - Invalid Parameter Name", "Request Error - Incorrect Parameter Type",
        "Request Error - Incorrect Parameter Value"] := by
  suffices H : ∀ (n : Nat) (s : RestletParamSchema), sizeOf s < n →
      ∀ (v : Option JSONType) (r : RestletErrorResponse),
        validateRequestParam v s = Except.ok (some r) → goodError r by
    intro v s r h
    exact H (sizeOf s + 1) s (by omega) v r h
  intro n
  induction n using Nat.strong_induction_on with
  | _ n ih =>
    intro s hs v r h
    match v with
    | none =>
      rw [validateRequestParam] at h
      split at h
      · injection h with h2
        injection h2 with h3
        subst h3
        exact goodError_missing _
      · cases h
    | some v =>
      rw [validateRequestParam] at h
      dsimp only at h
      split at h
      · injection h with h2
        injection h2 with h3
        subst h3
        exact goodError_wrongValue _ _ _
      · split at h
        · cases h
        · next wrongType heq =>
          injection h with h2
          injection h2 with h3
          subst h3
          exact validateRequestParamType_good _ _ _ heq
        · split at h
          · split at h
            · cases h
            · next members hmem =>
              refine validateTupleMembers_good _ _ members 0 (fun t ht w r2 h2 => ?_) r h
              have h3 := List.sizeOf_lt_of_mem ht
              have h4 := sizeOf_tupleType_some hmem
              exact ih (sizeOf t + 1) (by omega) t (by omega) w r2 h2
          · split at h
            · split at h
              · next elems helems =>
                refine validateArrayMembers_good s.arrayType (fun a ha w r2 h2 => ?_) elems r h
                have h3 := sizeOf_arrayType_lt s
                rw [ha] at h3
                simp at h3
                exact ih (sizeOf a + 1) (by omega) a (by omega) w r2 h2
              · cases h
            · split at h
              · split at h
                · cases h
                · next props hprops =>
                  split at h
                  · next fields hfields =>
                    split at h
                    · next e hmiss =>
                      injection h with h2
                      injection h2 with h3
                      subst h3
                      exact firstMissingRequiredProp_good _ _ _ hmiss
                    · refine validateObjectMembers_good props (fun sch k hfind w r2 h2 => ?_)
                        fields r h
                      have h3 := sizeOf_findPropSchema hfind
                      have h4 := sizeOf_properties_some hprops
                      exact ih (sizeOf sch + 1) (by omega) sch (by omega) w r2 h2
                  · cases h
              · cases h

/-- C9 witness: the theorem applied at the concrete absent value against a
required string schema, whose error is the missing-required record. -/
theorem C9_witness :
    (restletError.missingRequiredParam "x").status = 400 ∧
    (restletError.missingRequiredParam "x").name ∈ ["Request Error - Missing Required Parameter",
      "Request Error - Invalid Parameter Name", "Request Error - Incorrect Parameter Type",
      "Request Error - Incorrect Parameter Value"] :=
  C9_error_record_invariant none
    (RestletParamSchema.mk SchemaType.string (some "x") true none none none none none)
    (restletError.missingRequiredParam "x")
    (by rw [validateRequestParam]; simp)

mutual

/-- Well-formedness of a schema as claim C2 states it: every "array" node
carries `arrayType`, every "tuple" node carries `tupleType`, every
"object" node carries `properties`, every "values" node carries `values`,
every "overloaded" node carries `overloads`, recursively through the
fields validation can reach. -/
def schemaWellFormed (s : RestletParamSchema) : Bool :=
  (s.type != SchemaType.array ||
    (match h : s.arrayType with
     | some a => schemaWellFormed a
     | none => false)) &&
  (s.type != SchemaType.tuple ||
    (match h : s.tupleType with
     | some ts => schemaListWellFormed ts
     | none => false)) &&
  (s.type != SchemaType.object ||
    (match h : s.properties with
     | some ps => schemaListWellFormed ps
     | none => false)) &&
  (s.type != SchemaType.values || s.values.isSome) &&
  (s.type != SchemaType.overloaded ||
    (match h : s.overloads with
     | some os => schemaListWellFormed os
     | none => false))
termination_by (sizeOf s, 0)
decreasing_by
· simp_wf
  exact Prod.Lex.left _ _ (by
    have := sizeOf_arrayType_lt s
    rw [h] at this
    simp at this
    omega)
· simp_wf
  exact Prod.Lex.left _ _ (sizeOf_tupleType_some h)
· simp_wf
  exact Prod.Lex.left _ _ (sizeOf_properties_some h)
· simp_wf
  exact Prod.Lex.left _ _ (sizeOf_overloads_some h)

/-- Well-formedness of every schema of a list. -/
def schemaListWellFormed (l : List RestletParamSchema) : Bool :=
  match l with
  | [] => true
  | s :: rest => schemaWellFormed s && schemaListWellFormed rest
termination_by (sizeOf l, 1)
decreasing_by
· simp_wf
  exact Prod.Lex.left _ _ (by omega)
· simp_wf
  exact Prod.Lex.left _ _ (by omega)

end

mutual

/-- Whether no node validation can reach is an "overloaded" schema. -/
def overloadFree (s : RestletParamSchema) : Bool :=
  s.type != SchemaType.overloaded &&
  (match h : s.arrayType with
   | some a => overloadFree a
   | none => true) &&
  (match h : s.tupleType with
   | some ts => overloadFreeList ts
   | none => true) &&
  (match h : s.properties with
   | some ps => overloadFreeList ps
   | none => true)
termination_by (sizeOf s, 0)
decreasing_by
· simp_wf
  exact Prod.Lex.left _ _ (by
    have := sizeOf_arrayType_lt s
    rw [h] at this
    simp at this
    omega)
· simp_wf
  exact Prod.Lex.left _ _ (sizeOf_tupleType_some h)
· simp_wf
  exact Prod.Lex.left _ _ (sizeOf_properties_some h)

/-- Overload-freedom of every schema of a list. -/
def overloadFreeList (l : List RestletParamSchema) : Bool :=
  match l with
  | [] => true
  | s :: rest => overloadFree s && overloadFreeList rest
termination_by (sizeOf l, 1)
decreasing_by
· simp_wf
  exact Prod.Lex.left _ _ (by omega)
· simp_wf
  exact Prod.Lex.left _ _ (by omega)

end

mutual

/-- Whether no object anywhere in a JSON value owns a key named "length"
(such an object classifies as "array" and crashes the array branch's
iteration). -/
def lengthKeyFree : JSONType → Bool
  | .str _ => true
  | .num _ => true
  | .bool _ => true
  | .null => true
  | .arr elems => lengthKeyFreeList elems
  | .obj fields => (fields.lookup "length").isNone && lengthKeyFreeFields fields

/-- The length-key-freedom of every member of an array. -/
def lengthKeyFreeList : List JSONType → Bool
  | [] => true
  | e :: rest => lengthKeyFree e && lengthKeyFreeList rest

/-- The length-key-freedom of every field value of an object. -/
def lengthKeyFreeFields : List (String × JSONType) → Bool
  | [] => true
  | kv :: rest => lengthKeyFree kv.2 && lengthKeyFreeFields rest

end

/-- A member of a well-formed schema list is well-formed. -/
theorem schemaListWellFormed_mem {l : List RestletParamSchema} {t : RestletParamSchema}
    (hl : schemaListWellFormed l = true) (ht : t ∈ l) : schemaWellFormed t = true := by
  induction l with
  | nil => cases ht
  | cons s rest ih =>
    rw [schemaListWellFormed] at hl
    simp only [Bool.and_eq_true] at hl
    rcases List.mem_cons.mp ht with rfl | hmem
    · exact hl.1
    · exact ih hl.2 hmem

/-- A member of an overload-free schema list is overload-free. -/
theorem overloadFreeList_mem {l : List RestletParamSchema} {t : RestletParamSchema}
    (hl : overloadFreeList l = true) (ht : t ∈ l) : overloadFree t = true := by
  induction l with
  | nil => cases ht
  | cons s rest ih =>
    rw [overloadFreeList] at hl
    simp only [Bool.and_eq_true] at hl
    rcases List.mem_cons.mp ht with rfl | hmem
    · exact hl.1
    · exact ih hl.2 hmem

/-- An overload-free schema is not itself overloaded. -/
theorem overloadFree_type {s : RestletParamSchema} (h : overloadFree s = true) :
    s.type ≠ SchemaType.overloaded := by
  rw [overloadFree] at h
  simp only [Bool.and_eq_true, bne_iff_ne] at h
  exact h.1.1.1

/-- Overload-freedom reaches the arrayType field. -/
theorem overloadFree_arrayType {s a : RestletParamSchema} (h : overloadFree s = true)
    (ha : s.arrayType = some a) : overloadFree a = true := by
  rw [overloadFree] at h
  simp only [Bool.and_eq_true] at h
  have h2 := h.1.1.2
  split at h2
  · next a2 heq =>
    rw [ha] at heq
    injection heq with heq2
    subst heq2
    exact h2
  · next heq =>
    rw [ha] at heq
    cases heq

/-- Overload-freedom reaches the tupleType members. -/
theorem overloadFree_tupleType {s : RestletParamSchema} {ts : List RestletParamSchema}
    (h : overloadFree s = true) (hts : s.tupleType = some ts) : overloadFreeList ts = true := by
  rw [overloadFree] at h
  simp only [Bool.and_eq_true] at h
  have h2 := h.1.2
  split at h2
  · next ts2 heq =>
    rw [hts] at heq
    injection heq with heq2
    subst heq2
    exact h2
  · next heq =>
    rw [hts] at heq
    cases heq

/-- Overload-freedom reaches the declared properties. -/
theorem overloadFree_properties {s : RestletParamSchema} {ps : List RestletParamSchema}
    (h : overloadFree s = true) (hps : s.properties = some ps) : overloadFreeList ps = true := by
  rw [overloadFree] at h
  simp only [Bool.and_eq_true] at h
  have h2 := h.2
  split at h2
  · next ps2 heq =>
    rw [hps] at heq
    injection heq with heq2
    subst heq2
    exact h2
  · next heq =>
    rw [hps] at heq
    cases heq

/-- A well-formed array schema carries a well-formed element schema. -/
theorem schemaWellFormed_arrayType {s : RestletParamSchema} (h : schemaWellFormed s = true)
    (hty : s.type = SchemaType.array) :
    ∃ a, s.arrayType = some a ∧ schemaWellFormed a = true := by
  rw [schemaWellFormed] at h
  simp only [Bool.and_eq_true] at h
  have h2 := h.1.1.1.1
  rw [hty] at h2
  simp only [bne_self_eq_false, Bool.false_or] at h2
  split at h2
  · next a heq => exact ⟨a, heq, h2⟩
  · cases h2

/-- A well-formed tuple schema carries well-formed positional schemas. -/
theorem schemaWellFormed_tupleType {s : RestletParamSchema} (h : schemaWellFormed s = true)
    (hty : s.type = SchemaType.tuple) :
    ∃ ts, s.tupleType = some ts ∧ schemaListWellFormed ts = true := by
  rw [schemaWellFormed] at h
  simp only [Bool.and_eq_true] at h
  have h2 := h.1.1.1.2
  rw [hty] at h2
  simp only [bne_self_eq_false, Bool.false_or] at h2
  split at h2
  · next ts heq => exact ⟨ts, heq, h2⟩
  · cases h2

/-- A well-formed object schema carries well-formed property schemas. -/
theorem schemaWellFormed_properties {s : RestletParamSchema} (h : schemaWellFormed s = true)
    (hty : s.type = SchemaType.object) :
    ∃ ps, s.properties = some ps ∧ schemaListWellFormed ps = true := by
  rw [schemaWellFormed] at h
  simp only [Bool.and_eq_true] at h
  have h2 := h.1.1.2
  rw [hty] at h2
  simp only [bne_self_eq_false, Bool.false_or] at h2
  split at h2
  · next ps heq => exact ⟨ps, heq, h2⟩
  · cases h2

/-- Length-key-freedom reaches every member of an array. -/
theorem lengthKeyFreeList_mem {elems : List JSONType} {e : JSONType}
    (h : lengthKeyFreeList elems = true) (he : e ∈ elems) : lengthKeyFree e = true := by
  induction elems with
  | nil => cases he
  | cons x rest ih =>
    rw [lengthKeyFreeList] at h
    simp only [Bool.and_eq_true] at h
    rcases List.mem_cons.mp he with rfl | hmem
    · exact h.1
    · exact ih h.2 hmem

/-- Length-key-freedom reaches a field value found by key lookup. -/
theorem lengthKeyFreeFields_lookup {fields : List (String × JSONType)} {k : String}
    {e : JSONType} (h : lengthKeyFreeFields fields = true) (he : fields.lookup k = some e) :
    lengthKeyFree e = true := by
  induction fields with
  | nil => cases he
  | cons kv rest ih =>
    rw [lengthKeyFreeFields] at h
    simp only [Bool.and_eq_true] at h
    rw [List.lookup] at he
    split at he
    · injection he with he2
      subst he2
      exact h.1
    · exact ih h.2 he

/-- Length-key-freedom reaches any value produced by indexing. -/
theorem lengthKeyFree_jsIndex {v : JSONType} {i : Nat} {e : JSONType}
    (h : lengthKeyFree v = true) (he : jsIndex v i = some e) : lengthKeyFree e = true := by
  cases v with
  | arr elems =>
    rw [lengthKeyFree] at h
    exact lengthKeyFreeList_mem h (by
      rw [jsIndex] at he
      exact List.getElem?_mem he)
  | obj fields =>
    rw [lengthKeyFree] at h
    simp only [Bool.and_eq_true] at h
    rw [jsIndex] at he
    exact lengthKeyFreeFields_lookup h.2 he
  | str s => cases he
  | num n => cases he
  | bool b => cases he
  | null => cases he

/-- On length-key-free values, only true arrays classify as "array". -/
theorem lengthKeyFree_array_shape {v : JSONType} (h : lengthKeyFree v = true)
    (hty : jsonType v = "array") : ∃ elems, v = JSONType.arr elems := by
  cases v with
  | arr elems => exact ⟨elems, rfl⟩
  | obj fields =>
    rw [lengthKeyFree] at h
    simp only [Bool.and_eq_true, Option.isNone_iff_eq_none] at h
    rw [jsonType] at hty
    rw [h.1] at hty
    simp at hty
  | str s => simp [jsonType] at hty
  | num n => simp [jsonType] at hty
  | bool b => simp [jsonType] at hty
  | null => simp [jsonType] at hty

/-- Length-key-freedom of an object reaches its field list. -/
theorem lengthKeyFree_obj_fields {fields : List (String × JSONType)}
    (h : lengthKeyFree (JSONType.obj fields) = true) : lengthKeyFreeFields fields = true := by
  rw [lengthKeyFree] at h
  simp only [Bool.and_eq_true] at h
  exact h.2

/-- Length-key-freedom of a field list reaches each field value. -/
theorem lengthKeyFreeFields_value {fields : List (String × JSONType)} {k : String}
    {e : JSONType} (h : lengthKeyFreeFields fields = true) (he : (k, e) ∈ fields) :
    lengthKeyFree e = true := by
  induction fields with
  | nil => cases he
  | cons kv rest ih =>
    rw [lengthKeyFreeFields] at h
    simp only [Bool.and_eq_true] at h
    rcases List.mem_cons.mp he with heq | hmem
    · rw [← heq] at h
      exact h.1
    · exact ih h.2 hmem

/-- Whether a validation outcome is a normal return (no thrown error). -/
def exceptOk (e : Except String (Option RestletErrorResponse)) : Bool :=
  match e with
  | .ok _ => true
  | .error _ => false

/-- A normal outcome is an `Except.ok` of some result. -/
theorem exceptOk_exists {e : Except String (Option RestletErrorResponse)}
    (h : exceptOk e = true) : ∃ r, e = Except.ok r := by
  cases e with
  | ok r => exact ⟨r, rfl⟩
  | error msg => cases h

/-- The declared-type check never throws on non-overloaded schemas. -/
theorem validateRequestParamType_total (v : JSONType) (s : RestletParamSchema)
    (h : s.type ≠ SchemaType.overloaded) :
    ∃ r, validateRequestParamType v s = Except.ok r := by
  rw [validateRequestParamType]
  rw [if_neg (by simpa using h)]
  dsimp only
  split
  · exact ⟨_, rfl⟩
  · exact ⟨_, rfl⟩

/-- The tuple loop never throws when the member validations at indexed
values never throw. -/
theorem validateTupleMembers_total (v : JSONType) (p : Option String) :
    ∀ (members : List RestletParamSchema) (idx : Nat),
    (∀ t ∈ members, ∀ e, lengthKeyFree e = true →
      exceptOk (validateRequestParam (some e) t) = true) →
    (∀ i e, jsIndex v i = some e → lengthKeyFree e = true) →
    exceptOk (validateTupleMembers v idx p members) = true := by
  intro members
  induction members with
  | nil =>
    intro idx hm hv
    rw [validateTupleMembers]
    rfl
  | cons t rest ih =>
    intro idx hm hv
    rw [validateTupleMembers]
    rcases hji : jsIndex v idx with _ | x
    · rfl
    · obtain ⟨r0, hr0⟩ := exceptOk_exists (hm t (by simp) x (hv idx x hji))
      dsimp only
      rw [hr0]
      rcases r0 with _ | err
      · exact ih (idx + 1) (fun t2 ht2 => hm t2 (by simp [ht2])) hv
      · rfl

/-- The array loop never throws when the element schema's validations
never throw. -/
theorem validateArrayMembers_total (a : RestletParamSchema)
    (ha : ∀ e, lengthKeyFree e = true → exceptOk (validateRequestParam (some e) a) = true) :
    ∀ elems, lengthKeyFreeList elems = true →
      exceptOk (validateArrayMembers elems (some a)) = true := by
  intro elems
  induction elems with
  | nil =>
    intro h
    rw [validateArrayMembers]
    rfl
  | cons e rest ih =>
    intro h
    rw [lengthKeyFreeList] at h
    simp only [Bool.and_eq_true] at h
    rw [validateArrayMembers]
    obtain ⟨r0, hr0⟩ := exceptOk_exists (ha e h.1)
    rw [hr0]
    rcases r0 with _ | err
    · exact ih h.2
    · rfl

/-- The object second pass never throws when the found property schemas'
validations never throw. -/
theorem validateObjectMembers_total (props : List RestletParamSchema)
    (hm : ∀ sch k, findPropSchema k props = some sch → ∀ e, lengthKeyFree e = true →
      exceptOk (validateRequestParam (some e) sch) = true) :
    ∀ fields, lengthKeyFreeFields fields = true →
      exceptOk (validateObjectMembers fields props) = true := by
  intro fields
  induction fields with
  | nil =>
    intro h
    rw [validateObjectMembers]
    rfl
  | cons kv rest ih =>
    intro h
    obtain ⟨k, val⟩ := kv
    rw [lengthKeyFreeFields] at h
    simp only [Bool.and_eq_true] at h
    rw [validateObjectMembers]
    split
    · rfl
    · next sch hfind =>
      obtain ⟨r0, hr0⟩ := exceptOk_exists (hm sch k hfind val h.1)
      rw [hr0]
      rcases r0 with _ | err
      · exact ih h.2
      · rfl

/-- A found property schema is a member of the property list. -/
theorem findPropSchema_mem {key : String} {props : List RestletParamSchema}
    {p : RestletParamSchema} (h : findPropSchema key props = some p) : p ∈ props := by
  induction props with
  | nil => cases h
  | cons q rest ih =>
    rw [findPropSchema] at h
    split at h
    · injection h with h2
      subst h2
      exact List.mem_cons_self _ _
    · exact List.mem_cons_of_mem _ (ih h)

/-- Only the array discriminator prints "array". -/
theorem schemaType_name_array {t : SchemaType} (h : t.name = "array") :
    t = SchemaType.array := by
  cases t <;> simp_all [SchemaType.name]

/-- Only the object discriminator prints "object". -/
theorem schemaType_name_object {t : SchemaType} (h : t.name = "object") :
    t = SchemaType.object := by
  cases t <;> simp_all [SchemaType.name]

/-- A value classifying as "object" is an object. -/
theorem jsonType_object_shape {v : JSONType} (h : jsonType v = "object") :
    ∃ fields, v = JSONType.obj fields := by
  cases v <;> simp_all [jsonType]

/-- When a "values" schema does not reject the value, the value equals an
allowed primitive, so its type name is primitive. -/
theorem jsonType_primitive_of_values {s : RestletParamSchema} {v : JSONType}
    (hiv : (s.type == SchemaType.values &&
      !(match s.values with
        | some allowed => allowed.any fun p => primEq p v
        | none => false)) = false)
    (hty : s.type = SchemaType.values) :
    jsonType v = "string" ∨ jsonType v = "number" ∨ jsonType v = "boolean" ∨
      jsonType v = "null" := by
  rw [hty] at hiv
  simp only [beq_self_eq_true, Bool.true_and, Bool.not_eq_false'] at hiv
  split at hiv
  · next allowed heq =>
    obtain ⟨p, hp, hpe⟩ := List.any_eq_true.mp hiv
    exact jsonType_of_primEq hpe
  · cases hiv

/-- A passing type check on a "primitive" schema means the value's type
name is one of the four primitive names. -/
theorem validateRequestParamType_none_primitive {v : JSONType} {s : RestletParamSchema}
    (h : validateRequestParamType v s = Except.ok none) (hty : s.type = SchemaType.primitive) :
    (["string", "number", "boolean", "null"].contains (jsonType v)) = true := by
  rw [validateRequestParamType] at h
  rw [if_neg (by simp [hty])] at h
  dsimp only at h
  split at h
  · next hguard =>
    injection h with h2
    cases h2
  · next hguard =>
    by_contra hc
    simp at hc
    apply hguard
    simp [hty, hc]

/-- A passing type check on a plain declared type means the value's
inferred type name equals the declared name. -/
theorem validateRequestParamType_none_name {v : JSONType} {s : RestletParamSchema}
    (h : validateRequestParamType v s = Except.ok none)
    (hnov : s.type ≠ SchemaType.overloaded) (hntuple : s.type ≠ SchemaType.tuple)
    (hnvalues : s.type ≠ SchemaType.values) (hnprim : s.type ≠ SchemaType.primitive) :
    jsonType v = s.type.name := by
  rw [validateRequestParamType] at h
  rw [if_neg (by simpa using hnov)] at h
  dsimp only at h
  split at h
  · next hguard =>
    injection h with h2
    cases h2
  · next hguard =>
    by_contra hne
    apply hguard
    simp [hnvalues, hnprim, hntuple, hne]

/-- Totality of validation by strong induction on the schema size: on
well-formed, overload-free schemas and length-key-free inputs, validation
returns normally. -/
theorem validateRequestParam_total :
    ∀ (n : Nat) (s : RestletParamSchema), sizeOf s < n →
      schemaWellFormed s = true → overloadFree s = true →
      ∀ (v : Option JSONType),
        (match v with
         | none => true
         | some w => lengthKeyFree w) = true →
        exceptOk (validateRequestParam v s) = true := by
  intro n
  induction n using Nat.strong_induction_on with
  | _ n ih =>
    intro s hs hwf hof v hlkf
    match v with
    | none =>
      rw [validateRequestParam]
      split
      · rfl
      · rfl
    | some v =>
      simp only at hlkf
      rw [validateRequestParam]
      dsimp only
      split
      · rfl
      · next hiv =>
        simp only [Bool.not_eq_true] at hiv
        obtain ⟨rt, hrt⟩ := validateRequestParamType_total v s (overloadFree_type hof)
        rw [hrt]
        rcases rt with _ | wrongType
        · dsimp only
          split
          · next htup =>
            obtain ⟨ts, hts, hlts⟩ := schemaWellFormed_tupleType hwf (by simpa using htup)
            split
            · next heq =>
              rw [hts] at heq
              cases heq
            · next members heq =>
              rw [hts] at heq
              injection heq with heq2
              subst heq2
              refine validateTupleMembers_total v s.param ts 0 (fun t ht e hlkfe => ?_)
                (fun i e he => lengthKeyFree_jsIndex hlkf he)
              have hwft := schemaListWellFormed_mem hlts ht
              have hoft := overloadFreeList_mem (overloadFree_tupleType hof hts) ht
              have hsz1 := List.sizeOf_lt_of_mem ht
              have hsz2 := sizeOf_tupleType_some hts
              exact ih (sizeOf t + 1) (by omega) t (by omega) hwft hoft (some e)
                (by simpa using hlkfe)
          · next htupneg =>
            split
            · next harr =>
              simp only [Bool.and_eq_true, beq_iff_eq, bne_iff_ne] at harr
              have hnvalues : s.type ≠ SchemaType.values := by
                intro hv2
                rcases jsonType_primitive_of_values hiv hv2 with h4 | h4 | h4 | h4 <;>
                  rw [h4] at harr <;> simp at harr
              have hnprim : s.type ≠ SchemaType.primitive := by
                intro hp
                have hc := validateRequestParamType_none_primitive hrt hp
                rw [harr.1] at hc
                simp at hc
              have hname := validateRequestParamType_none_name hrt harr.2
                (by simpa using htupneg) hnvalues hnprim
              have hty : s.type = SchemaType.array :=
                schemaType_name_array (by rw [← hname, harr.1])
              obtain ⟨elems, rfl⟩ := lengthKeyFree_array_shape hlkf harr.1
              obtain ⟨a, ha, hwfa⟩ := schemaWellFormed_arrayType hwf hty
              dsimp only [arrayElems]
              rw [ha]
              refine validateArrayMembers_total a (fun e hlkfe => ?_) elems
                (by rw [lengthKeyFree] at hlkf; exact hlkf)
              have hofa := overloadFree_arrayType hof ha
              have hsza := sizeOf_arrayType_lt s
              rw [ha] at hsza
              simp at hsza
              exact ih (sizeOf a + 1) (by omega) a (by omega) hwfa hofa (some e)
                (by simpa using hlkfe)
            · next harrneg =>
              split
              · next hobj =>
                simp only [beq_iff_eq] at hobj
                have hnvalues : s.type ≠ SchemaType.values := by
                  intro hv2
                  rcases jsonType_primitive_of_values hiv hv2 with h4 | h4 | h4 | h4 <;>
                    rw [h4] at hobj <;> simp at hobj
                have hnprim : s.type ≠ SchemaType.primitive := by
                  intro hp
                  have hc := validateRequestParamType_none_primitive hrt hp
                  rw [hobj] at hc
                  simp at hc
                have hnarr : s.type ≠ SchemaType.overloaded := overloadFree_type hof
                have hname := validateRequestParamType_none_name hrt hnarr
                  (by simpa using htupneg) hnvalues hnprim
                have hty : s.type = SchemaType.object :=
                  schemaType_name_object (by rw [← hname, hobj])
                obtain ⟨props, hps, hlps⟩ := schemaWellFormed_properties hwf hty
                split
                · next heq =>
                  rw [hps] at heq
                  cases heq
                · next props2 heq =>
                  rw [hps] at heq
                  injection heq with heq2
                  subst heq2
                  obtain ⟨fields, rfl⟩ := jsonType_object_shape hobj
                  dsimp only [objFields]
                  split
                  · rfl
                  · refine validateObjectMembers_total props (fun sch k hfind e hlkfe => ?_)
                      fields (lengthKeyFree_obj_fields hlkf)
                    have hmem := findPropSchema_mem hfind
                    have hwfs := schemaListWellFormed_mem hlps hmem
                    have hofs := overloadFreeList_mem (overloadFree_properties hof hps) hmem
                    have hsz1 := sizeOf_findPropSchema hfind
                    have hsz2 := sizeOf_properties_some hps
                    exact ih (sizeOf sch + 1) (by omega) sch (by omega) hwfs hofs (some e)
                      (by simpa using hlkfe)
              · rfl
        · rfl

/-- C2 (amended): for every well-formed schema containing no "overloaded"
node and every JSON input whose objects own no "length" key (or an absent
input), validateRequestParam returns normally, yielding null or an error
record and never throwing.  The exclusions are forced: an overloaded
schema applied to an object value it does not reject, and an array schema
applied to an object owning a "length" key, both throw a TypeError (see
the counterexample). -/
theorem C2_no_throw (s : RestletParamSchema) (v : Option JSONType)
    (hwf : schemaWellFormed s = true) (hof : overloadFree s = true)
    (hlkf : (match v with
             | none => true
             | some w => lengthKeyFree w) = true) :
    ∃ r, validateRequestParam v s = Except.ok r :=
  exceptOk_exists (validateRequestParam_total (sizeOf s + 1) s (by omega) hwf hof v hlkf)

/-- A well-formed overloaded schema whose only alternative is an object
schema with no properties. -/
def c2OverloadedSchema : RestletParamSchema :=
  .mk .overloaded (some "c2over") true none none none none
    (some [.mk .object none false none none (some []) none none])

/-- A well-formed array-of-number schema. -/
def c2ArraySchema : RestletParamSchema :=
  .mk .array (some "c2arr") true (some (.mk .number none false none none none none none))
    none none none none

/-- C2 counterexample: with well-formed schemas, the claimed never-throws
property fails twice: an overloaded schema meeting an object value its
alternative accepts reads `properties` of the overloaded schema
(undefined) and throws, which is precisely the claim's "in particular"
case; and an array schema meeting the object {"length": 1} (classified
"array") throws iterating a non-iterable. -/
theorem C2_counterexample :
    schemaWellFormed c2OverloadedSchema = true ∧
    validateRequestParam (some (JSONType.obj [])) c2OverloadedSchema =
      Except.error "TypeError: undefined is not iterable" ∧
    schemaWellFormed c2ArraySchema = true ∧
    validateRequestParam (some (JSONType.obj [("length", JSONType.num 1)])) c2ArraySchema =
      Except.error "TypeError: paramValue is not iterable" := by
  refine ⟨?_, ?_, ?_, ?_⟩
  · simp [schemaWellFormed, schemaListWellFormed, c2OverloadedSchema]
  · have hobjalt : validateRequestParam (some (JSONType.obj []))
        (RestletParamSchema.mk .object none false none none (some []) none none) =
        Except.ok none := by
      rw [validateRequestParam]
      simp [validateRequestParamType, jsonType, SchemaType.name, objFields,
        firstMissingRequiredProp, validateObjectMembers]
    have hTV : isTypeOrValueError none = false := by decide
    rw [validateRequestParam]
    simp [validateRequestParamType, c2OverloadedSchema, validateOverloads, hobjalt, hTV,
      jsonType, SchemaType.name, objFields]
  · simp [schemaWellFormed, c2ArraySchema]
  · rw [validateRequestParam]
    simp [validateRequestParamType, c2ArraySchema, jsonType, SchemaType.name, arrayElems]

/-- C2 witness: the amended theorem applied at the concrete value "1"
against the numberparam schema. -/
theorem C2_witness :
    ∃ r, validateRequestParam (some (JSONType.str "1")) numberParamSchema = Except.ok r :=
  C2_no_throw numberParamSchema (some (JSONType.str "1"))
    (by simp [schemaWellFormed, numberParamSchema])
    (by simp [overloadFree, numberParamSchema])
    (by simp [lengthKeyFree])
